import Mathlib

/-!
Verification of the order-workflow core of the `db_dummy` e-commerce backend.

The embedding follows `src/app/crud.py` (order creation, order reading),
`src/app/models.py` (the `Product`, `Order`, `OrderItem` tables) and
`src/app/schemas.py` (the request shapes).  The basket operations
(add item, update quantity, remove item) and order cancellation are called
from `src/app/routers/order_items.py` but their crud functions are absent
from the source tree; those are modelled from the specification (§4.1) and
marked as such in their doc comments.

Database rows are modelled as Lean structures; a database state is lists of
rows.  `price` is carried opaquely as an integer (the workflow never
computes with it).  `stock` and `quantity` are integers, exactly as the
SQLAlchemy `Integer` columns and the pydantic `int` fields: nothing in the
source constrains their sign.  The inert catalog columns (description,
category/subcategory references, image url, top flags) are omitted: the
order workflow never reads or writes them.
-/

/-- A row of the `products` table (`src/app/models.py`).  `id` is the
primary key; `stock` is the mutable inventory count. -/
structure Product where
  id : Nat
  name : String
  price : Int
  stock : Int
  deriving Repr, DecidableEq

/-- A row of the `order_items` table (`src/app/models.py`, class
`OrderItem`; `src/app/crud.py` constructs it under the name
`OrderProduct`, passing only `order_id`, `product_id` and `quantity`).
The model declares the snapshot columns `product_name` and
`product_price` with `nullable=False`; they are `Option`-valued here so
that a row created without them carries `none` (SQL `NULL`). -/
structure OrderItem where
  order_id : Nat
  product_id : Nat
  quantity : Int
  product_name : Option String
  product_price : Option Int
  deriving Repr, DecidableEq

/-- One `{product_id, quantity}` pair of a create-order request
(`src/app/schemas.py`, class `ProductInOrder`).  The schema puts no
constraint on `quantity`. -/
structure ProductInOrder where
  product_id : Nat
  quantity : Int
  deriving Repr, DecidableEq

/-- A create-order request (`src/app/schemas.py`, class `OrderCreate`). -/
structure OrderCreate where
  products : List ProductInOrder
  deriving Repr, DecidableEq

/-- The persisted database state: the `products`, `orders` and
`order_items` tables, plus the sequence that assigns the next order id.
Orders carry only their id (their timestamps are inert here). -/
structure DB where
  products : List Product
  orders : List Nat
  items : List OrderItem
  nextOrderId : Nat
  deriving Repr, DecidableEq

/-- An HTTP error raised by the crud layer (`fastapi.HTTPException`). -/
inductive CrudError where
  | http (status : Nat) (detail : String)
  deriving Repr, DecidableEq

/-- The value returned by `create_order`: the dict
`{"id": order.id, "products": [{product_id, quantity}, ...]}` on success. -/
inductive CreateOrderResult where
  | ok (id : Nat) (products : List (Nat × Int))
  | err (e : CrudError)
  deriving Repr, DecidableEq

/-- The error taxonomy of the specification (§7), used by the
spec-modelled basket operations. -/
inductive WorkflowError where
  | notFound
  | insufficientStock
  | validationError
  deriving Repr, DecidableEq

/-- Apply a stock delta to the product row with the given id (the UPDATE
emitted when a mutated ORM `Product` object is committed; `id` is the
primary key, so at most one row matches in a well-formed table). -/
def adjustStock (l : List Product) (pid : Nat) (delta : Int) : List Product :=
  l.map (fun p => if p.id == pid then { p with stock := p.stock + delta } else p)

/-- The stock column of the product row with the given id, if present. -/
def stockIn (l : List Product) (pid : Nat) : Option Int :=
  (l.find? (fun p => p.id == pid)).map (fun p => p.stock)

/-- The persisted stock of a product in a database state. -/
def stockOf (db : DB) (pid : Nat) : Option Int :=
  stockIn db.products pid

/-- `process_product` of `src/app/crud.py` (lines 257-269): look the
product up in the session view, fail with 404 if absent, fail with 400 if
`product.stock < item.quantity`, otherwise decrement the stock in the
session and build the line-item row (only `order_id`, `product_id` and
`quantity` are populated). -/
def processProduct (view : List Product) (oid : Nat) (item : ProductInOrder) :
    Except CrudError (List Product × OrderItem) :=
  match view.find? (fun p => p.id == item.product_id) with
  | none =>
      .error (.http 404 ("Product ID " ++ toString item.product_id ++ " not found"))
  | some p =>
      if p.stock < item.quantity then
        .error (.http 400 ("Not enough stock for product ID " ++ toString item.product_id))
      else
        .ok (adjustStock view item.product_id (-item.quantity),
          { order_id := oid, product_id := item.product_id,
            quantity := item.quantity, product_name := none, product_price := none })

/-- The list comprehension of `create_order` (line 272): process the pairs
left to right, threading the session view (the identity map makes a later
lookup of the same product see the earlier in-session decrement), stopping
at the first failure. -/
def processProducts (view : List Product) (oid : Nat) :
    List ProductInOrder → Except CrudError (List Product × List OrderItem)
  | [] => .ok (view, [])
  | item :: rest =>
      match processProduct view oid item with
      | .error e => .error e
      | .ok (view', row) =>
          match processProducts view' oid rest with
          | .error e => .error e
          | .ok (view'', rows) => .ok (view'', row :: rows)

/-- `create_order` of `src/app/crud.py` (lines 246-289).  The empty order
row is committed first (line 250), so it persists on every path.  The
stock mutations and line-item inserts are only committed at line 277; when
a pair fails, the raised exception escapes before that commit and the
session is closed without committing (`get_db` in `src/app/database.py`),
rolling the uncommitted session changes back — the error branches
therefore return the state persisted by the first commit. -/
def commitEmptyOrder (db : DB) : DB :=
  { db with orders := db.orders ++ [db.nextOrderId], nextOrderId := db.nextOrderId + 1 }

/-- The body of `create_order` (`src/app/crud.py`, lines 246-289): commit
the empty order, reject an empty pair list, process the pairs in the
session, and commit the session view and line items only when every pair
succeeded. -/
def create_order (db : DB) (req : OrderCreate) : CreateOrderResult × DB :=
  if req.products.isEmpty then
    (.err (.http 400 "Order must include at least one product"), commitEmptyOrder db)
  else
    match processProducts db.products db.nextOrderId req.products with
    | .error e => (.err e, commitEmptyOrder db)
    | .ok (view', rows) =>
        (.ok db.nextOrderId (rows.map (fun r => (r.product_id, r.quantity))),
          { commitEmptyOrder db with products := view', items := db.items ++ rows })

/-- The response of `get_order_by_id`: the order id and, per surviving
line item, the live product detail and the quantity. -/
structure OrderDetail where
  id : Nat
  products : List (Product × Int)
  deriving Repr, DecidableEq

/-- `get_order_by_id` of `src/app/crud.py` (lines 292-327): 404 when the
order row is absent; otherwise the response lists, for each line item of
the order, the live product detail and quantity — the comprehension's
`if op.product` guard drops every line item whose product row no longer
exists. -/
def get_order_by_id (db : DB) (order_id : Nat) : Except CrudError OrderDetail :=
  if db.orders.contains order_id then
    .ok
      { id := order_id,
        products :=
          (db.items.filter (fun it => it.order_id == order_id)).filterMap
            (fun it =>
              (db.products.find? (fun p => p.id == it.product_id)).map
                (fun p => (p, it.quantity))) }
  else
    .error (.http 404 "Order not found")

/-- The line-item rows of one order. -/
def itemsOf (db : DB) (oid : Nat) : List OrderItem :=
  db.items.filter (fun it => it.order_id == oid)

/-- The line-item row for one (order, product) pair — the composite
primary key of `order_items` in `src/app/models.py`. -/
def findItem (db : DB) (oid pid : Nat) : Option OrderItem :=
  db.items.find? (fun it => it.order_id == oid && it.product_id == pid)

/-- Replace the quantity of the line item with the given composite key. -/
def setItemQty (items : List OrderItem) (oid pid : Nat) (q : Int) : List OrderItem :=
  items.map (fun it =>
    if it.order_id == oid && it.product_id == pid then { it with quantity := q } else it)

/-- Modelled from the spec: the crud function behind
`add_item_to_basket` (`src/app/routers/order_items.py` calls
`crud.get_order_item_by_product` / `crud.update_order_item_quantity` /
`crud.add_item_to_order`, none of which exist under `src/`).  Spec §4.1:
quantities must be positive (§7 `ValidationError`); if a line item for the
same (order, product) pair exists, increase its quantity after
re-validating that the additional quantity does not exceed remaining
stock; otherwise insert a new line item with the same stock
check/decrement as order creation, capturing the name/price snapshot. -/
def addItem (db : DB) (oid pid : Nat) (q : Int) : Except WorkflowError DB :=
  if q ≤ 0 then .error .validationError
  else
    match db.products.find? (fun p => p.id == pid) with
    | none => .error .notFound
    | some p =>
        if p.stock < q then .error .insufficientStock
        else
          match findItem db oid pid with
          | some it =>
              .ok { db with
                products := adjustStock db.products pid (-q),
                items := setItemQty db.items oid pid (it.quantity + q) }
          | none =>
              .ok { db with
                products := adjustStock db.products pid (-q),
                items := db.items ++
                  [{ order_id := oid, product_id := pid, quantity := q,
                     product_name := some p.name, product_price := some p.price }] }

/-- Modelled from the spec: the crud function behind
`modify_item_quantity` (`crud.update_order_item_quantity` is absent from
`src/`).  Spec §4.1: given a new absolute quantity (positive, §7),
compute the delta versus the existing quantity; if increasing, re-check
stock for the delta; if decreasing, restore the delta back to stock;
persist the item's new quantity and the adjusted stock. -/
def updateItemQuantity (db : DB) (oid pid : Nat) (newQ : Int) : Except WorkflowError DB :=
  if newQ ≤ 0 then .error .validationError
  else
    match findItem db oid pid with
    | none => .error .notFound
    | some it =>
        match db.products.find? (fun p => p.id == pid) with
        | none => .error .notFound
        | some p =>
            if 0 < newQ - it.quantity ∧ p.stock < newQ - it.quantity then
              .error .insufficientStock
            else
              .ok { db with
                products := adjustStock db.products pid (-(newQ - it.quantity)),
                items := setItemQty db.items oid pid newQ }

/-- Modelled from the spec: the crud function behind
`remove_item_from_basket` (`crud.delete_order_item` is absent from
`src/`).  Spec §4.1: restore the item's quantity to the product's stock,
then delete the line-item record; a missing line item is a `NotFound`
signal, not a fault. -/
def removeItem (db : DB) (oid pid : Nat) : Except WorkflowError DB :=
  match findItem db oid pid with
  | none => .error .notFound
  | some it =>
      .ok { db with
        products := adjustStock db.products pid it.quantity,
        items := db.items.filter
          (fun r => !(r.order_id == oid && r.product_id == pid)) }

/-- Restore stock for a list of line items, one increment per item. -/
def restoreAll (ps : List Product) (rows : List OrderItem) : List Product :=
  rows.foldl (fun acc r => adjustStock acc r.product_id r.quantity) ps

/-- Modelled from the spec: order cancellation (no cancel endpoint or crud
function exists under `src/`).  Spec §4.1: for every line item of the
order, increment the product's stock by the item's quantity, then delete
all line items, then delete the order itself; fails silently with a
not-found signal when the order does not exist or has no line items. -/
def cancelOrder (db : DB) (oid : Nat) : Except WorkflowError DB :=
  if db.orders.contains oid && !(itemsOf db oid).isEmpty then
    .ok { db with
      products := restoreAll db.products (itemsOf db oid),
      items := db.items.filter (fun it => !(it.order_id == oid)),
      orders := db.orders.filter (fun o => !(o == oid)) }
  else
    .error .notFound

/-- One order-workflow operation, as enumerated by claim C1. -/
inductive Op where
  | create (req : OrderCreate)
  | add (oid pid : Nat) (q : Int)
  | updateQty (oid pid : Nat) (newQ : Int)
  | remove (oid pid : Nat)
  | cancel (oid : Nat)
  deriving Repr, DecidableEq

/-- The persisted state after one operation.  Each call is one
transaction: a failed basket operation leaves the database unchanged,
while `create_order` returns the state it persisted (which, on failure,
still contains the empty order row committed up front). -/
def applyOp (db : DB) : Op → DB
  | .create req => (create_order db req).2
  | .add oid pid q =>
      match addItem db oid pid q with
      | .ok db' => db'
      | .error _ => db
  | .updateQty oid pid newQ =>
      match updateItemQuantity db oid pid newQ with
      | .ok db' => db'
      | .error _ => db
  | .remove oid pid =>
      match removeItem db oid pid with
      | .ok db' => db'
      | .error _ => db
  | .cancel oid =>
      match cancelOrder db oid with
      | .ok db' => db'
      | .error _ => db

/-- Run a sequence of order-workflow operations. -/
def runOps (db : DB) (ops : List Op) : DB :=
  ops.foldl applyOp db

/-- All product stocks are non-negative. -/
def nonnegStocks (l : List Product) : Prop :=
  ∀ p ∈ l, 0 ≤ p.stock

/-- Well-formedness carried through the workflow: product ids are a
primary key, stocks are non-negative, and every committed line item has a
positive quantity. -/
def WFInv (db : DB) : Prop :=
  nonnegStocks db.products ∧ (db.products.map (fun p => p.id)).Nodup ∧
    ∀ it ∈ db.items, 0 < it.quantity

/-- An operation whose requested quantities are all strictly positive.
Only `create_order` (the real code) accepts non-positive quantities; the
spec-modelled basket operations validate theirs. -/
def opPositive : Op → Prop
  | .create req => ∀ it ∈ req.products, 0 < it.quantity
  | _ => True

/-! ### Lemmas about stock adjustment -/

lemma find?_cons_true {α : Type} (p : α → Bool) (a : α) (l : List α) (h : p a = true) :
    (a :: l).find? p = some a := by
  simp [List.find?, h]

lemma find?_cons_false {α : Type} (p : α → Bool) (a : α) (l : List α) (h : p a = false) :
    (a :: l).find? p = l.find? p := by
  simp [List.find?, h]

lemma adjustStock_cons (hd : Product) (tl : List Product) (pid : Nat) (delta : Int) :
    adjustStock (hd :: tl) pid delta =
      (if hd.id == pid then { hd with stock := hd.stock + delta } else hd) ::
        adjustStock tl pid delta := rfl

lemma stockIn_cons (hd : Product) (tl : List Product) (pid : Nat) :
    stockIn (hd :: tl) pid =
      if hd.id == pid then some hd.stock else stockIn tl pid := by
  by_cases h : (hd.id == pid) = true
  · rw [stockIn, find?_cons_true (fun p => p.id == pid) hd tl h, if_pos h]
    rfl
  · rw [stockIn, find?_cons_false (fun p => p.id == pid) hd tl (by simpa using h), if_neg h]
    rfl

lemma nonnegStocks_cons (hd : Product) (tl : List Product) :
    nonnegStocks (hd :: tl) ↔ 0 ≤ hd.stock ∧ nonnegStocks tl := by
  constructor
  · exact fun h => ⟨h hd (List.mem_cons_self hd tl),
      fun p hp => h p (List.mem_cons_of_mem hd hp)⟩
  · rintro ⟨h1, h2⟩ p hp
    rcases List.mem_cons.mp hp with rfl | hp
    · exact h1
    · exact h2 p hp

lemma adjustStock_map_id (l : List Product) (pid : Nat) (delta : Int) :
    (adjustStock l pid delta).map (fun p => p.id) = l.map (fun p => p.id) := by
  simp only [adjustStock, List.map_map]
  induction l with
  | nil => rfl
  | cons hd tl ih =>
      simp only [List.map_cons, ih, Function.comp]
      by_cases h : hd.id == pid <;> simp [h]

lemma adjustStock_no_match (l : List Product) (pid : Nat) (delta : Int)
    (h : ∀ p ∈ l, p.id ≠ pid) : adjustStock l pid delta = l := by
  induction l with
  | nil => rfl
  | cons hd tl ih =>
      have hhd : ¬ (hd.id == pid) = true := by
        simp only [beq_iff_eq]
        exact h hd (List.mem_cons_self hd tl)
      simp only [adjustStock, List.map_cons, if_neg hhd]
      rw [show (tl.map fun p => if p.id == pid then { p with stock := p.stock + delta } else p)
            = adjustStock tl pid delta from rfl,
        ih fun p hp => h p (List.mem_cons_of_mem hd hp)]

lemma stockIn_adjustStock_self (l : List Product) (pid : Nat) (delta : Int) :
    stockIn (adjustStock l pid delta) pid = (stockIn l pid).map (fun x => x + delta) := by
  induction l with
  | nil => rfl
  | cons hd tl ih =>
      rw [adjustStock_cons]
      by_cases h : (hd.id == pid) = true
      · rw [if_pos h, stockIn_cons, stockIn_cons, if_pos h,
          if_pos (show (({ hd with stock := hd.stock + delta } : Product).id == pid) = true
            from h)]
        rfl
      · rw [if_neg h, stockIn_cons, stockIn_cons, if_neg h, if_neg h]
        exact ih

lemma stockIn_adjustStock_other (l : List Product) (pid pid' : Nat) (delta : Int)
    (h : pid ≠ pid') : stockIn (adjustStock l pid' delta) pid = stockIn l pid := by
  induction l with
  | nil => rfl
  | cons hd tl ih =>
      rw [adjustStock_cons]
      by_cases hh : (hd.id == pid') = true
      · have hpid : (hd.id == pid) = false := by
          simp only [beq_eq_false_iff_ne, ne_eq]
          rw [beq_iff_eq.mp hh]
          exact fun hc => h hc.symm
        rw [if_pos hh, stockIn_cons, stockIn_cons,
          if_neg (show ¬ (({ hd with stock := hd.stock + delta } : Product).id == pid) = true
            by simp only [hpid]; exact Bool.false_ne_true),
          if_neg (by simp only [hpid]; exact Bool.false_ne_true)]
        exact ih
      · rw [if_neg hh, stockIn_cons, stockIn_cons]
        by_cases hp : (hd.id == pid) = true
        · rw [if_pos hp, if_pos hp]
        · rw [if_neg hp, if_neg hp]
          exact ih

lemma nonneg_adjustStock_of_nonneg_delta (l : List Product) (pid : Nat) (delta : Int)
    (hd : 0 ≤ delta) (h : nonnegStocks l) : nonnegStocks (adjustStock l pid delta) := by
  intro p hp
  rcases List.mem_map.mp hp with ⟨q, hq, rfl⟩
  by_cases hm : q.id == pid
  · simp only [if_pos hm]
    exact add_nonneg (h q hq) hd
  · simp only [if_neg hm]
    exact h q hq

lemma nonneg_adjustStock_of_found (l : List Product) (pid : Nat) (delta : Int)
    (p0 : Product) (hnd : (l.map (fun p => p.id)).Nodup)
    (hf : l.find? (fun p => p.id == pid) = some p0) (hpos : 0 ≤ p0.stock + delta)
    (h : nonnegStocks l) : nonnegStocks (adjustStock l pid delta) := by
  induction l with
  | nil => intro p hp; exact absurd hp (by simp [adjustStock])
  | cons hd tl ih =>
      simp only [List.map_cons, List.nodup_cons] at hnd
      rw [nonnegStocks_cons] at h
      rw [adjustStock_cons]
      by_cases hm : (hd.id == pid) = true
      · rw [find?_cons_true (fun p => p.id == pid) hd tl hm] at hf
        injection hf with hf
        subst hf
        rw [if_pos hm, nonnegStocks_cons]
        refine ⟨hpos, ?_⟩
        rw [adjustStock_no_match tl pid delta ?_]
        · exact h.2
        · intro q hq hqe
          apply hnd.1
          rw [beq_iff_eq.mp hm, ← hqe]
          exact List.mem_map_of_mem _ hq
      · rw [find?_cons_false (fun p => p.id == pid) hd tl (by simpa using hm)] at hf
        rw [if_neg hm, nonnegStocks_cons]
        exact ⟨h.1, ih hnd.2 hf h.2⟩

/-! ### Inversion of the create-order pipeline -/

lemma processProduct_ok {view : List Product} {oid : Nat} {item : ProductInOrder}
    {view' : List Product} {row : OrderItem}
    (h : processProduct view oid item = .ok (view', row)) :
    ∃ p, view.find? (fun q => q.id == item.product_id) = some p ∧
      ¬ p.stock < item.quantity ∧
      view' = adjustStock view item.product_id (-item.quantity) ∧
      row = { order_id := oid, product_id := item.product_id,
              quantity := item.quantity, product_name := none, product_price := none } := by
  unfold processProduct at h
  split at h
  · exact absurd h (by simp)
  · rename_i p hf
    split at h
    · exact absurd h (by simp)
    · rename_i hs
      simp only [Except.ok.injEq, Prod.mk.injEq] at h
      exact ⟨p, hf, hs, h.1.symm, h.2.symm⟩

lemma processProducts_cons_ok {view : List Product} {oid : Nat} {item : ProductInOrder}
    {rest : List ProductInOrder} {view'' : List Product} {rows : List OrderItem}
    (h : processProducts view oid (item :: rest) = .ok (view'', rows)) :
    ∃ view' row rows',
      processProduct view oid item = .ok (view', row) ∧
      processProducts view' oid rest = .ok (view'', rows') ∧
      rows = row :: rows' := by
  unfold processProducts at h
  split at h
  · exact absurd h (by simp)
  · rename_i view' row h1
    split at h
    · exact absurd h (by simp)
    · rename_i v2 rows' h2
      simp only [Except.ok.injEq, Prod.mk.injEq] at h
      exact ⟨view', row, rows', h1, h.1 ▸ h2, h.2.symm⟩

/-! ### Stock accounting through the pipeline -/

/-- Total quantity a request asks for one product. -/
def reqQty (pairs : List ProductInOrder) (pid : Nat) : Int :=
  ((pairs.filter (fun it => it.product_id == pid)).map (fun it => it.quantity)).sum

/-- Total quantity a list of line items reserves for one product. -/
def rowsQty (rows : List OrderItem) (pid : Nat) : Int :=
  ((rows.filter (fun it => it.product_id == pid)).map (fun it => it.quantity)).sum

lemma reqQty_cons (item : ProductInOrder) (rest : List ProductInOrder) (pid : Nat) :
    reqQty (item :: rest) pid =
      (if item.product_id == pid then item.quantity else 0) + reqQty rest pid := by
  by_cases h : (item.product_id == pid) = true
  · simp [reqQty, List.filter_cons, h]
  · simp [reqQty, List.filter_cons, h]

lemma rowsQty_cons (row : OrderItem) (rest : List OrderItem) (pid : Nat) :
    rowsQty (row :: rest) pid =
      (if row.product_id == pid then row.quantity else 0) + rowsQty rest pid := by
  by_cases h : (row.product_id == pid) = true
  · simp [rowsQty, List.filter_cons, h]
  · simp [rowsQty, List.filter_cons, h]

lemma processProducts_stock (pairs : List ProductInOrder) :
    ∀ (view : List Product) (oid : Nat) (view' : List Product) (rows : List OrderItem),
      processProducts view oid pairs = .ok (view', rows) →
      ∀ pid, stockIn view' pid = (stockIn view pid).map (fun x => x - reqQty pairs pid) := by
  induction pairs with
  | nil =>
      intro view oid view' rows h pid
      simp only [processProducts, Except.ok.injEq, Prod.mk.injEq] at h
      rw [← h.1]
      cases stockIn view pid <;> simp [reqQty]
  | cons item rest ih =>
      intro view oid view' rows h pid
      obtain ⟨view1, row, rows', h1, h2, _⟩ := processProducts_cons_ok h
      obtain ⟨p, hf, hs, hv, hr⟩ := processProduct_ok h1
      subst hv
      have hrec := ih _ oid _ _ h2 pid
      rw [hrec]
      by_cases hid : pid = item.product_id
      · subst hid
        rw [stockIn_adjustStock_self, reqQty_cons, if_pos (by simp)]
        cases stockIn view item.product_id with
        | none => rfl
        | some v => simp only [Option.map_some']; congr 1; ring
      · rw [stockIn_adjustStock_other view pid item.product_id _ hid, reqQty_cons,
          if_neg (by simpa using fun hc => hid hc.symm)]
        cases stockIn view pid with
        | none => rfl
        | some v => simp only [Option.map_some']; congr 1; ring

lemma processProducts_rows (pairs : List ProductInOrder) :
    ∀ (view : List Product) (oid : Nat) (view' : List Product) (rows : List OrderItem),
      processProducts view oid pairs = .ok (view', rows) →
      rows = pairs.map (fun it =>
        ({ order_id := oid, product_id := it.product_id, quantity := it.quantity,
           product_name := none, product_price := none } : OrderItem)) := by
  induction pairs with
  | nil =>
      intro view oid view' rows h
      simp only [processProducts, Except.ok.injEq, Prod.mk.injEq] at h
      exact h.2.symm
  | cons item rest ih =>
      intro view oid view' rows h
      obtain ⟨view1, row, rows', h1, h2, hrows⟩ := processProducts_cons_ok h
      obtain ⟨p, hf, hs, hv, hr⟩ := processProduct_ok h1
      rw [hrows, hr, ih _ oid _ _ h2, List.map_cons]

lemma processProducts_nonneg (pairs : List ProductInOrder) :
    ∀ (view : List Product) (oid : Nat) (view' : List Product) (rows : List OrderItem),
      (view.map (fun p => p.id)).Nodup → nonnegStocks view →
      processProducts view oid pairs = .ok (view', rows) →
      nonnegStocks view' ∧ (view'.map (fun p => p.id)).Nodup := by
  induction pairs with
  | nil =>
      intro view oid view' rows hnd hnn h
      simp only [processProducts, Except.ok.injEq, Prod.mk.injEq] at h
      rw [← h.1]
      exact ⟨hnn, hnd⟩
  | cons item rest ih =>
      intro view oid view' rows hnd hnn h
      obtain ⟨view1, row, rows', h1, h2, _⟩ := processProducts_cons_ok h
      obtain ⟨p, hf, hs, hv, hr⟩ := processProduct_ok h1
      subst hv
      have hnn1 : nonnegStocks (adjustStock view item.product_id (-item.quantity)) := by
        apply nonneg_adjustStock_of_found view item.product_id _ p hnd hf
        · have := not_lt.mp hs
          omega
        · exact hnn
      have hnd1 : ((adjustStock view item.product_id (-item.quantity)).map
          (fun p => p.id)).Nodup := by
        rw [adjustStock_map_id]; exact hnd
      exact ih _ oid _ _ hnd1 hnn1 h2

lemma restoreAll_stock (rows : List OrderItem) :
    ∀ (ps : List Product) (pid : Nat),
      stockIn (restoreAll ps rows) pid = (stockIn ps pid).map (fun x => x + rowsQty rows pid) := by
  induction rows with
  | nil =>
      intro ps pid
      have hstep : restoreAll ps [] = ps := rfl
      rw [hstep]
      cases stockIn ps pid <;> simp [rowsQty]
  | cons row rest ih =>
      intro ps pid
      have hstep : restoreAll ps (row :: rest) =
          restoreAll (adjustStock ps row.product_id row.quantity) rest := rfl
      rw [hstep, ih]
      by_cases hid : pid = row.product_id
      · subst hid
        rw [stockIn_adjustStock_self, rowsQty_cons, if_pos (by simp)]
        cases stockIn ps row.product_id with
        | none => rfl
        | some v => simp only [Option.map_some']; congr 1; ring
      · rw [stockIn_adjustStock_other ps pid row.product_id _ hid, rowsQty_cons,
          if_neg (by simpa using fun hc => hid hc.symm)]
        cases stockIn ps pid with
        | none => rfl
        | some v => simp only [Option.map_some']; congr 1; ring

lemma restoreAll_nonneg (rows : List OrderItem) :
    ∀ (ps : List Product), (∀ r ∈ rows, 0 ≤ r.quantity) → nonnegStocks ps →
      nonnegStocks (restoreAll ps rows) := by
  induction rows with
  | nil => intro ps _ h; exact h
  | cons row rest ih =>
      intro ps hq h
      have hstep : restoreAll ps (row :: rest) =
          restoreAll (adjustStock ps row.product_id row.quantity) rest := rfl
      rw [hstep]
      exact ih _ (fun r hr => hq r (List.mem_cons_of_mem row hr))
        (nonneg_adjustStock_of_nonneg_delta _ _ _
          (hq row (List.mem_cons_self row rest)) h)

lemma restoreAll_map_id (rows : List OrderItem) :
    ∀ (ps : List Product),
      (restoreAll ps rows).map (fun p => p.id) = ps.map (fun p => p.id) := by
  induction rows with
  | nil => intro ps; rfl
  | cons row rest ih =>
      intro ps
      have hstep : restoreAll ps (row :: rest) =
          restoreAll (adjustStock ps row.product_id row.quantity) rest := rfl
      rw [hstep, ih, adjustStock_map_id]

/-! ### Inversion of `create_order` -/

lemma create_order_err {db : DB} {req : OrderCreate} {e : CrudError} {db' : DB}
    (h : create_order db req = (.err e, db')) :
    db' = commitEmptyOrder db := by
  unfold create_order at h
  split at h
  · injection h with h1 h2
    exact h2.symm
  · split at h
    · injection h with h1 h2
      exact h2.symm
    · injection h with h1 h2
      exact absurd h1 (by simp)

lemma create_order_ok {db : DB} {req : OrderCreate} {oid : Nat}
    {resp : List (Nat × Int)} {db' : DB}
    (h : create_order db req = (.ok oid resp, db')) :
    oid = db.nextOrderId ∧ req.products ≠ [] ∧
      ∃ view' rows,
        processProducts db.products db.nextOrderId req.products = .ok (view', rows) ∧
        db' = { products := view', orders := db.orders ++ [db.nextOrderId],
                items := db.items ++ rows, nextOrderId := db.nextOrderId + 1 } ∧
        resp = rows.map (fun r => (r.product_id, r.quantity)) := by
  unfold create_order at h
  split at h
  · injection h with h1 h2
    exact absurd h1 (by simp)
  · rename_i hne
    split at h
    · injection h with h1 h2
      exact absurd h1 (by simp)
    · rename_i view' rows hp
      injection h with h1 h2
      simp only [CreateOrderResult.ok.injEq] at h1
      refine ⟨h1.1.symm, by simpa [List.isEmpty_iff] using hne, view', rows, hp, ?_, h1.2.symm⟩
      rw [← h2]
      rfl

/-! ### Claim theorems -/

/-- C4: during order creation a resolved pair is checked against the
product's current stock: it fails with the insufficient-stock error
exactly when `quantity > stock` (i.e. `product.stock < item.quantity`),
and a pair whose quantity equals the available stock passes the check and
succeeds. -/
theorem c4_stock_check (view : List Product) (oid : Nat) (item : ProductInOrder)
    (p : Product) (hp : view.find? (fun q => q.id == item.product_id) = some p) :
    (processProduct view oid item =
        .error (.http 400 ("Not enough stock for product ID " ++ toString item.product_id))
      ↔ p.stock < item.quantity)
    ∧ (item.quantity = p.stock →
        processProduct view oid item =
          .ok (adjustStock view item.product_id (-item.quantity),
            { order_id := oid, product_id := item.product_id,
              quantity := item.quantity, product_name := none, product_price := none })) := by
  have hred : processProduct view oid item =
      if p.stock < item.quantity then
        .error (.http 400 ("Not enough stock for product ID " ++ toString item.product_id))
      else
        .ok (adjustStock view item.product_id (-item.quantity),
          { order_id := oid, product_id := item.product_id,
            quantity := item.quantity, product_name := none, product_price := none }) := by
    unfold processProduct
    rw [hp]
  rw [hred]
  constructor
  · by_cases hs : p.stock < item.quantity
    · simp [hs]
    · simp [hs]
  · intro hq
    rw [if_neg (by rw [hq]; exact lt_irrefl _)]

/-- Witness for C4: product with stock 5, requested quantity 5 — the
boundary pair is not rejected and succeeds. -/
theorem c4_stock_check_witness :
    ¬ processProduct [⟨1, "A", 2, 5⟩] 1 ⟨1, 5⟩ =
        .error (.http 400 ("Not enough stock for product ID " ++ toString (1 : Nat))) ∧
    processProduct [⟨1, "A", 2, 5⟩] 1 ⟨1, 5⟩ =
      .ok (adjustStock [⟨1, "A", 2, 5⟩] 1 (-(5 : Int)), ⟨1, 1, 5, none, none⟩) := by
  have h := c4_stock_check [⟨1, "A", 2, 5⟩] 1 ⟨1, 5⟩ ⟨1, "A", 2, 5⟩ rfl
  exact ⟨fun hc => absurd (h.1.mp hc) (by decide), h.2 rfl⟩

/-- C2: order creation is all-or-nothing — after any failing create-order
call the persisted products table (hence every product's stock, including
those of earlier pairs that had already passed their check) and the
persisted line items are unchanged. -/
theorem c2_atomic_failure (db : DB) (req : OrderCreate) (e : CrudError) (db' : DB)
    (h : create_order db req = (.err e, db')) :
    db'.products = db.products ∧ db'.items = db.items := by
  rw [create_order_err h]
  exact ⟨rfl, rfl⟩

def dbC2 : DB := ⟨[⟨1, "A", 2, 2⟩], [], [], 1⟩

def reqC2 : OrderCreate := ⟨[⟨1, 1⟩, ⟨1, 5⟩]⟩

/-- Witness for C2: the first pair passes (stock 2 covers quantity 1), the
second fails on stock, and the persisted state keeps stock 2 and no line
items. -/
theorem c2_atomic_failure_witness :
    (create_order dbC2 reqC2).1 =
      .err (.http 400 ("Not enough stock for product ID " ++ toString (1 : Nat))) ∧
    (create_order dbC2 reqC2).2.products = dbC2.products ∧
    (create_order dbC2 reqC2).2.items = dbC2.items := by
  refine ⟨rfl, c2_atomic_failure dbC2 reqC2
    (.http 400 ("Not enough stock for product ID " ++ toString (1 : Nat)))
    (create_order dbC2 reqC2).2 rfl⟩

/-- C10 (implicit): `create_order` commits a new empty order row before
any validation, so every failing call — empty pair list, missing product
or insufficient stock alike — leaves behind a persisted order with the
fresh id and no line items. -/
theorem c10_orphan_order (db : DB) (req : OrderCreate) (e : CrudError) (db' : DB)
    (hfresh : ∀ it ∈ db.items, it.order_id ≠ db.nextOrderId)
    (h : create_order db req = (.err e, db')) :
    db'.orders = db.orders ++ [db.nextOrderId] ∧
    db'.items.filter (fun it => it.order_id == db.nextOrderId) = [] ∧
    db'.nextOrderId = db.nextOrderId + 1 := by
  rw [create_order_err h]
  refine ⟨rfl, ?_, rfl⟩
  apply List.filter_eq_nil_iff.mpr
  intro it hit
  simpa using hfresh it hit

def dbC10 : DB := ⟨[], [], [⟨0, 1, 1, none, none⟩], 1⟩

/-- Witness for C10: a create-order call with an empty pair list fails but
still persists order 1 with no line items. -/
theorem c10_orphan_order_witness :
    (create_order dbC10 ⟨[]⟩).2.orders = dbC10.orders ++ [1] ∧
    (create_order dbC10 ⟨[]⟩).2.items.filter (fun it => it.order_id == 1) = [] ∧
    (create_order dbC10 ⟨[]⟩).2.nextOrderId = 2 :=
  c10_orphan_order dbC10 ⟨[]⟩ (.http 400 "Order must include at least one product")
    (create_order dbC10 ⟨[]⟩).2 (by decide) rfl

/-- The NOT NULL constraint on the snapshot columns of the `OrderItem`
model (`src/app/models.py`, lines 50-51: `product_name` and
`product_price`, both `nullable=False`). -/
def orderItemColumnsNotNull (it : OrderItem) : Prop :=
  it.product_name ≠ none ∧ it.product_price ≠ none

def dbC6 : DB := ⟨[⟨1, "Alpha", 5, 10⟩], [], [], 1⟩

def reqC6 : OrderCreate := ⟨[⟨1, 3⟩]⟩

/-- C6 (code bug): the line item committed by `create_order` carries no
snapshot of the product's name and price — `create_order` populates only
`order_id`, `product_id` and `quantity`, leaving both snapshot columns
NULL in violation of the model's own `nullable=False` declarations. -/
theorem c6_no_snapshot :
    create_order dbC6 reqC6 =
      (.ok 1 [(1, 3)],
        ⟨[⟨1, "Alpha", 5, 7⟩], [1], [⟨1, 1, 3, none, none⟩], 2⟩) ∧
    ∀ it ∈ (create_order dbC6 reqC6).2.items, ¬ orderItemColumnsNotNull it := by
  refine ⟨rfl, ?_⟩
  intro it hit
  have hits : (create_order dbC6 reqC6).2.items = [⟨1, 1, 3, none, none⟩] := rfl
  rw [hits] at hit
  rcases List.mem_singleton.mp hit with rfl
  intro hcon
  exact hcon.1 rfl

def dbC8 : DB := ⟨[⟨1, "Alpha", 5, 10⟩], [], [], 1⟩

def reqC8 : OrderCreate := ⟨[⟨1, -5⟩]⟩

/-- C8 (code bug): nothing validates quantity positivity — a pair with
quantity -5 passes the stock check (10 < -5 is false), is committed as a
line item with negative quantity, and INCREASES the product's persisted
stock from 10 to 15. -/
theorem c8_negative_quantity_accepted :
    stockOf dbC8 1 = some 10 ∧
    create_order dbC8 reqC8 =
      (.ok 1 [(1, -5)],
        ⟨[⟨1, "Alpha", 5, 15⟩], [1], [⟨1, 1, -5, none, none⟩], 2⟩) ∧
    stockOf (create_order dbC8 reqC8).2 1 = some 15 :=
  ⟨rfl, rfl, rfl⟩

lemma length_filterMap_eq_countP {α β : Type} (f : α → Option β) (l : List α) :
    (l.filterMap f).length = l.countP (fun a => (f a).isSome) := by
  induction l with
  | nil => rfl
  | cons hd tl ih =>
      cases hf : f hd with
      | none => simp [List.filterMap_cons, hf, List.countP_cons, ih]
      | some b => simp [List.filterMap_cons, hf, List.countP_cons, ih]

def dbC7 : DB := ⟨[], [1], [⟨1, 7, 2, some "Gone", some 9⟩], 2⟩

/-- C7 counterexample: order 1 holds one line item whose product (id 7)
has been deleted, and the row even carries snapshot values; reading the
order succeeds but returns an EMPTY product list — the line item is
omitted rather than rendered from its snapshot, refuting the claim. -/
theorem c7_deleted_product_item_omitted :
    get_order_by_id dbC7 1 = .ok ⟨1, []⟩ ∧
    itemsOf dbC7 1 = [⟨1, 7, 2, some "Gone", some 9⟩] :=
  ⟨rfl, rfl⟩

/-- C7 amended: reading an existing order always succeeds (a deleted
product never makes the order unreadable), and the response carries the
live product detail and quantity for precisely those line items whose
product still exists — line items whose product has been deleted are
silently omitted instead of being rendered from the snapshot columns. -/
theorem c7_read_order_live_items (db : DB) (oid : Nat)
    (h : db.orders.contains oid = true) :
    ∃ d, get_order_by_id db oid = .ok d ∧
      (∀ it ∈ itemsOf db oid, ∀ p,
        db.products.find? (fun q => q.id == it.product_id) = some p →
        (p, it.quantity) ∈ d.products) ∧
      d.products.length =
        (itemsOf db oid).countP
          (fun it => (db.products.find? (fun q => q.id == it.product_id)).isSome) := by
  have hred : get_order_by_id db oid =
      .ok ⟨oid, (itemsOf db oid).filterMap
        (fun it => (db.products.find? (fun q => q.id == it.product_id)).map
          (fun p => (p, it.quantity)))⟩ := by
    unfold get_order_by_id
    rw [if_pos h]
    rfl
  refine ⟨_, hred, ?_, ?_⟩
  · intro it hit p hp
    apply List.mem_filterMap.mpr
    exact ⟨it, hit, by rw [hp]; rfl⟩
  · have hlen := length_filterMap_eq_countP
      (fun it => (db.products.find? (fun q => q.id == it.product_id)).map
        (fun p => (p, it.quantity))) (itemsOf db oid)
    rw [hlen]
    apply List.countP_congr
    intro it _
    cases db.products.find? (fun q => q.id == it.product_id) <;> rfl

def dbC7w : DB :=
  ⟨[⟨2, "Live", 4, 8⟩], [1],
    [⟨1, 2, 3, none, none⟩, ⟨1, 9, 1, some "Dead", some 2⟩], 2⟩

/-- Witness for C7 amended: order 1 has a live item (product 2) and an
item whose product 9 was deleted; the read succeeds, includes the live
detail, and has exactly one entry. -/
theorem c7_read_order_live_items_witness :
    ∃ d, get_order_by_id dbC7w 1 = .ok d ∧
      ((⟨2, "Live", 4, 8⟩ : Product), (3 : Int)) ∈ d.products ∧
      d.products.length = 1 := by
  obtain ⟨d, h1, h2, h3⟩ := c7_read_order_live_items dbC7w 1 rfl
  refine ⟨d, h1, ?_, ?_⟩
  · exact h2 ⟨1, 2, 3, none, none⟩ (by decide) ⟨2, "Live", 4, 8⟩ rfl
  · rw [h3]
    decide

lemma reqQty_of_nodup (pairs : List ProductInOrder)
    (hnd : (pairs.map (fun it => it.product_id)).Nodup) :
    ∀ it ∈ pairs, reqQty pairs it.product_id = it.quantity := by
  induction pairs with
  | nil => intro it hit; exact absurd hit (List.not_mem_nil it)
  | cons hd tl ih =>
      simp only [List.map_cons, List.nodup_cons] at hnd
      intro it hit
      rcases List.mem_cons.mp hit with rfl | hit'
      · rw [reqQty_cons, if_pos (by simp)]
        have hfil : tl.filter (fun x => x.product_id == it.product_id) = [] := by
          apply List.filter_eq_nil_iff.mpr
          intro a ha hc
          exact hnd.1 (by
            rw [← beq_iff_eq.mp hc]
            exact List.mem_map_of_mem _ ha)
        rw [show reqQty tl it.product_id =
            ((tl.filter (fun x => x.product_id == it.product_id)).map
              (fun x => x.quantity)).sum from rfl, hfil]
        simp
      · have hne : (hd.product_id == it.product_id) = false := by
          apply beq_eq_false_iff_ne.mpr
          intro hc
          exact hnd.1 (by rw [hc]; exact List.mem_map_of_mem _ hit')
        rw [reqQty_cons, if_neg (by simp [hne]), ih hnd.2 it hit']
        ring

/-- C5: when `create_order` succeeds, the persisted stock of each
requested product equals its previous stock minus the requested quantity,
and exactly the requested line items are committed — one per pair, in
order, carrying the resolved product id and that quantity (distinct
product ids per request, matching the composite primary key of
`order_items`). -/
theorem c5_success_decrement (db : DB) (req : OrderCreate) (oid : Nat)
    (resp : List (Nat × Int)) (db' : DB)
    (hnd : (req.products.map (fun it => it.product_id)).Nodup)
    (h : create_order db req = (.ok oid resp, db')) :
    (∀ it ∈ req.products,
      stockOf db' it.product_id =
        (stockOf db it.product_id).map (fun x => x - it.quantity)) ∧
    db'.items = db.items ++ req.products.map (fun it =>
      ({ order_id := db.nextOrderId, product_id := it.product_id,
         quantity := it.quantity, product_name := none,
         product_price := none } : OrderItem)) := by
  obtain ⟨hoid, hne, view', rows, hp, hdb, hresp⟩ := create_order_ok h
  subst hdb
  constructor
  · intro it hit
    have hst := processProducts_stock req.products db.products db.nextOrderId
      view' rows hp it.product_id
    rw [reqQty_of_nodup req.products hnd it hit] at hst
    exact hst
  · have hrows := processProducts_rows req.products db.products db.nextOrderId
      view' rows hp
    show db.items ++ rows = _
    rw [hrows]

def dbC5 : DB := ⟨[⟨1, "A", 2, 10⟩], [], [], 1⟩

def reqC5 : OrderCreate := ⟨[⟨1, 3⟩]⟩

/-- Witness for C5: product with stock 10 ordered with quantity 3 ends
with stock 7 and a single committed line item for the pair. -/
theorem c5_success_decrement_witness :
    stockOf (create_order dbC5 reqC5).2 1 = some 7 ∧
    (create_order dbC5 reqC5).2.items = [⟨1, 1, 3, none, none⟩] := by
  have h := c5_success_decrement dbC5 reqC5 1 [(1, 3)] (create_order dbC5 reqC5).2
    (by decide) rfl
  exact ⟨(h.1 ⟨1, 3⟩ (by decide)).trans (by decide), h.2.trans (by decide)⟩

/-- C9: removing an existing line item restores its quantity to the
product's stock and deletes the row; removing it again returns the
`NotFound` signal (leaving the state as it was), so the stock is restored
exactly once across the two calls. -/
theorem c9_remove_item_idempotent (db : DB) (oid pid : Nat) (row : OrderItem)
    (hf : findItem db oid pid = some row) :
    ∃ db1, removeItem db oid pid = .ok db1 ∧
      stockOf db1 pid = (stockOf db pid).map (fun x => x + row.quantity) ∧
      findItem db1 oid pid = none ∧
      removeItem db1 oid pid = .error .notFound := by
  have hnone : (db.items.filter
        (fun r => !(r.order_id == oid && r.product_id == pid))).find?
      (fun it => it.order_id == oid && it.product_id == pid) = none := by
    apply List.find?_eq_none.mpr
    intro x hx
    have h2 := (List.mem_filter.mp hx).2
    simp only [Bool.not_eq_true'] at h2
    simp [h2]
  refine ⟨⟨adjustStock db.products pid row.quantity, db.orders,
    db.items.filter (fun r => !(r.order_id == oid && r.product_id == pid)),
    db.nextOrderId⟩, ?_, ?_, hnone, ?_⟩
  · unfold removeItem
    rw [hf]
  · exact stockIn_adjustStock_self db.products pid row.quantity
  · unfold removeItem
    rw [show findItem ⟨adjustStock db.products pid row.quantity, db.orders,
      db.items.filter (fun r => !(r.order_id == oid && r.product_id == pid)),
      db.nextOrderId⟩ oid pid = none from hnone]

def dbC9 : DB := ⟨[⟨1, "A", 2, 3⟩], [1], [⟨1, 1, 4, none, none⟩], 2⟩

/-- Witness for C9: removing the only line item (quantity 4) of order 1
raises product 1's stock from 3 to 7 once; the second removal reports
`NotFound`. -/
theorem c9_remove_item_idempotent_witness :
    ∃ db1, removeItem dbC9 1 1 = .ok db1 ∧
      stockOf db1 1 = some 7 ∧
      findItem db1 1 1 = none ∧
      removeItem db1 1 1 = .error .notFound := by
  obtain ⟨db1, h1, h2, h3, h4⟩ :=
    c9_remove_item_idempotent dbC9 1 1 ⟨1, 1, 4, none, none⟩ rfl
  exact ⟨db1, h1, h2.trans (by decide), h3, h4⟩

lemma rowsQty_map_row (pairs : List ProductInOrder) (oid : Nat) (pid : Nat) :
    rowsQty (pairs.map (fun it =>
      ({ order_id := oid, product_id := it.product_id, quantity := it.quantity,
         product_name := none, product_price := none } : OrderItem))) pid
      = reqQty pairs pid := by
  induction pairs with
  | nil => rfl
  | cons hd tl ih =>
      rw [List.map_cons, rowsQty_cons, reqQty_cons, ih]

lemma cancelOrder_ok (db : DB) (oid : Nat)
    (hc : db.orders.contains oid = true) (hne : (itemsOf db oid).isEmpty = false) :
    cancelOrder db oid = .ok
      ⟨restoreAll db.products (itemsOf db oid),
        db.orders.filter (fun o => !(o == oid)),
        db.items.filter (fun it => !(it.order_id == oid)),
        db.nextOrderId⟩ := by
  unfold cancelOrder
  split
  · rfl
  · rename_i hcond
    rw [hc, hne] at hcond
    exact absurd rfl hcond

/-- C3: cancelling exactly undoes creation — for any successful
create-order call on a well-formed state, cancelling the created order
succeeds, restores every product's stock to its value before the order
was created, deletes all the order's line items and deletes the order
row. -/
theorem c3_cancel_roundtrip (db : DB) (req : OrderCreate) (oid : Nat)
    (resp : List (Nat × Int)) (db1 : DB)
    (hfresh : ∀ it ∈ db.items, it.order_id ≠ db.nextOrderId)
    (hord : db.nextOrderId ∉ db.orders)
    (hc : create_order db req = (.ok oid resp, db1)) :
    ∃ db2, cancelOrder db1 oid = .ok db2 ∧
      (∀ pid, stockOf db2 pid = stockOf db pid) ∧
      db2.items = db.items ∧ db2.orders = db.orders := by
  obtain ⟨hoid, hne, view', rows, hp, hdb, hresp⟩ := create_order_ok hc
  subst hoid
  subst hdb
  have hrows := processProducts_rows req.products db.products db.nextOrderId
    view' rows hp
  have hfresh2 : db.items.filter (fun it => it.order_id == db.nextOrderId) = [] := by
    apply List.filter_eq_nil_iff.mpr
    intro it hit
    simpa using hfresh it hit
  have hrows_all : rows.filter (fun it => it.order_id == db.nextOrderId) = rows := by
    apply List.filter_eq_self.mpr
    intro it hit
    rw [hrows] at hit
    rcases List.mem_map.mp hit with ⟨a, _, rfl⟩
    simp
  have hitems1 : itemsOf ⟨view', db.orders ++ [db.nextOrderId], db.items ++ rows,
      db.nextOrderId + 1⟩ db.nextOrderId = rows := by
    show (db.items ++ rows).filter (fun it => it.order_id == db.nextOrderId) = rows
    rw [List.filter_append, hfresh2, hrows_all, List.nil_append]
  have hrne : rows.isEmpty = false := by
    rw [hrows]
    cases hreq : req.products with
    | nil => exact absurd hreq hne
    | cons a l => rfl
  have hcancel := cancelOrder_ok ⟨view', db.orders ++ [db.nextOrderId],
    db.items ++ rows, db.nextOrderId + 1⟩ db.nextOrderId
    (by simp) (by rw [hitems1]; exact hrne)
  rw [hitems1] at hcancel
  refine ⟨_, hcancel, ?_, ?_, ?_⟩
  · intro pid
    show stockIn (restoreAll view' rows) pid = stockIn db.products pid
    rw [restoreAll_stock, processProducts_stock req.products db.products
      db.nextOrderId view' rows hp pid, hrows, rowsQty_map_row]
    cases stockIn db.products pid with
    | none => rfl
    | some v => simp only [Option.map_map, Option.map_some']; congr 1; ring
  · show (db.items ++ rows).filter (fun it => !(it.order_id == db.nextOrderId))
        = db.items
    rw [List.filter_append]
    have h1 : db.items.filter (fun it => !(it.order_id == db.nextOrderId))
        = db.items := by
      apply List.filter_eq_self.mpr
      intro it hit
      simpa using hfresh it hit
    have h2 : rows.filter (fun it => !(it.order_id == db.nextOrderId)) = [] := by
      apply List.filter_eq_nil_iff.mpr
      intro it hit
      rw [hrows] at hit
      rcases List.mem_map.mp hit with ⟨a, _, rfl⟩
      simp
    rw [h1, h2, List.append_nil]
  · show (db.orders ++ [db.nextOrderId]).filter (fun o => !(o == db.nextOrderId))
        = db.orders
    rw [List.filter_append]
    have h1 : db.orders.filter (fun o => !(o == db.nextOrderId)) = db.orders := by
      apply List.filter_eq_self.mpr
      intro o ho
      simp only [Bool.not_eq_true']
      apply beq_eq_false_iff_ne.mpr
      intro hcon
      exact hord (hcon ▸ ho)
    have h2 : [db.nextOrderId].filter (fun o => !(o == db.nextOrderId)) = [] := by
      simp
    rw [h1, h2, List.append_nil]

def dbC3 : DB := ⟨[⟨1, "A", 2, 10⟩], [], [], 1⟩

def reqCW3 : OrderCreate := ⟨[⟨1, 3⟩]⟩

/-- Witness for C3: create an order for quantity 3 on a product with
stock 10 (stock drops to 7), then cancel it: stock returns to 10, line
items and the order row are gone. -/
theorem c3_cancel_roundtrip_witness :
    ∃ db2, cancelOrder (create_order dbC3 reqCW3).2 1 = .ok db2 ∧
      stockOf db2 1 = some 10 ∧ db2.items = [] ∧ db2.orders = [] := by
  obtain ⟨db2, h1, h2, h3, h4⟩ := c3_cancel_roundtrip dbC3 reqCW3 1 [(1, 3)]
    (create_order dbC3 reqCW3).2 (by decide) (by decide) rfl
  exact ⟨db2, h1, (h2 1).trans rfl, h3.trans rfl, h4.trans rfl⟩

/-! ### Preservation of well-formedness by each operation -/

lemma itemsPos_setItemQty (items : List OrderItem) (oid pid : Nat) (q : Int)
    (hq : 0 < q) (h : ∀ it ∈ items, 0 < it.quantity) :
    ∀ it ∈ setItemQty items oid pid q, 0 < it.quantity := by
  intro it hit
  rcases List.mem_map.mp hit with ⟨r, hr, rfl⟩
  by_cases hm : (r.order_id == oid && r.product_id == pid) = true
  · rw [if_pos hm]
    exact hq
  · rw [if_neg hm]
    exact h r hr

lemma WFInv_create_order (db : DB) (req : OrderCreate)
    (hpos : ∀ it ∈ req.products, 0 < it.quantity) (h : WFInv db) :
    WFInv (create_order db req).2 := by
  obtain ⟨hnn, hnd, hitems⟩ := h
  rcases hres : create_order db req with ⟨r, db'⟩
  cases r with
  | err e =>
      rw [create_order_err hres]
      exact ⟨hnn, hnd, hitems⟩
  | ok oid resp =>
      obtain ⟨hoid, hne, view', rows, hp, hdb, hresp⟩ := create_order_ok hres
      subst hdb
      obtain ⟨hnn', hnd'⟩ := processProducts_nonneg req.products db.products
        db.nextOrderId view' rows hnd hnn hp
      refine ⟨hnn', hnd', ?_⟩
      intro it hit
      rcases List.mem_append.mp hit with hold | hnew
      · exact hitems it hold
      · rw [processProducts_rows req.products db.products db.nextOrderId
          view' rows hp] at hnew
        rcases List.mem_map.mp hnew with ⟨a, ha, rfl⟩
        exact hpos a ha

lemma WFInv_addItem (db : DB) (oid pid : Nat) (q : Int) (db' : DB)
    (h : addItem db oid pid q = .ok db') (hinv : WFInv db) : WFInv db' := by
  obtain ⟨hnn, hnd, hitems⟩ := hinv
  unfold addItem at h
  split at h
  · exact absurd h (by simp)
  · rename_i hq
    have hq' : 0 < q := lt_of_not_le hq
    split at h
    · exact absurd h (by simp)
    · rename_i p hfp
      split at h
      · exact absurd h (by simp)
      · rename_i hs
        have hnn' : nonnegStocks (adjustStock db.products pid (-q)) := by
          apply nonneg_adjustStock_of_found db.products pid (-q) p hnd hfp
          · have := not_lt.mp hs
            omega
          · exact hnn
        have hnd' : ((adjustStock db.products pid (-q)).map
            (fun p => p.id)).Nodup := by
          rw [adjustStock_map_id]
          exact hnd
        split at h
        · rename_i it0 hit0
          injection h with h
          rw [← h]
          exact ⟨hnn', hnd', itemsPos_setItemQty db.items oid pid
            (it0.quantity + q)
            (add_pos (hitems it0 (List.mem_of_find?_eq_some hit0)) hq') hitems⟩
        · injection h with h
          rw [← h]
          refine ⟨hnn', hnd', ?_⟩
          intro it hit
          rcases List.mem_append.mp hit with hold | hnew
          · exact hitems it hold
          · rcases List.mem_singleton.mp hnew with rfl
            exact hq'

lemma WFInv_updateItemQuantity (db : DB) (oid pid : Nat) (newQ : Int) (db' : DB)
    (h : updateItemQuantity db oid pid newQ = .ok db') (hinv : WFInv db) :
    WFInv db' := by
  obtain ⟨hnn, hnd, hitems⟩ := hinv
  unfold updateItemQuantity at h
  split at h
  · exact absurd h (by simp)
  · rename_i hq
    have hq' : 0 < newQ := lt_of_not_le hq
    split at h
    · exact absurd h (by simp)
    · rename_i it0 hit0
      split at h
      · exact absurd h (by simp)
      · rename_i p hfp
        split at h
        · exact absurd h (by simp)
        · rename_i hcond
          injection h with h
          rw [← h]
          refine ⟨?_, ?_, itemsPos_setItemQty db.items oid pid newQ hq' hitems⟩
          · by_cases hdelta : 0 < newQ - it0.quantity
            · have hle : ¬ p.stock < newQ - it0.quantity :=
                fun hc => hcond ⟨hdelta, hc⟩
              apply nonneg_adjustStock_of_found db.products pid
                (-(newQ - it0.quantity)) p hnd hfp
              · have := not_lt.mp hle
                omega
              · exact hnn
            · apply nonneg_adjustStock_of_nonneg_delta
              · have := not_lt.mp hdelta
                omega
              · exact hnn
          · rw [adjustStock_map_id]
            exact hnd

lemma WFInv_removeItem (db : DB) (oid pid : Nat) (db' : DB)
    (h : removeItem db oid pid = .ok db') (hinv : WFInv db) : WFInv db' := by
  obtain ⟨hnn, hnd, hitems⟩ := hinv
  unfold removeItem at h
  split at h
  · exact absurd h (by simp)
  · rename_i it0 hit0
    injection h with h
    rw [← h]
    refine ⟨?_, ?_, ?_⟩
    · apply nonneg_adjustStock_of_nonneg_delta
      · exact le_of_lt (hitems it0 (List.mem_of_find?_eq_some hit0))
      · exact hnn
    · rw [adjustStock_map_id]
      exact hnd
    · intro it hit
      exact hitems it (List.mem_of_mem_filter hit)

lemma WFInv_cancelOrder (db : DB) (oid : Nat) (db' : DB)
    (h : cancelOrder db oid = .ok db') (hinv : WFInv db) : WFInv db' := by
  obtain ⟨hnn, hnd, hitems⟩ := hinv
  unfold cancelOrder at h
  split at h
  · injection h with h
    rw [← h]
    refine ⟨?_, ?_, ?_⟩
    · apply restoreAll_nonneg
      · intro r hr
        exact le_of_lt (hitems r (List.mem_of_mem_filter hr))
      · exact hnn
    · rw [restoreAll_map_id]
      exact hnd
    · intro it hit
      exact hitems it (List.mem_of_mem_filter hit)
  · exact absurd h (by simp)

lemma WFInv_applyOp (db : DB) (op : Op) (hpos : opPositive op) (hinv : WFInv db) :
    WFInv (applyOp db op) := by
  cases op with
  | create req => exact WFInv_create_order db req hpos hinv
  | add oid pid q =>
      simp only [applyOp]
      cases h : addItem db oid pid q with
      | ok db' => exact WFInv_addItem db oid pid q db' h hinv
      | error e => exact hinv
  | updateQty oid pid newQ =>
      simp only [applyOp]
      cases h : updateItemQuantity db oid pid newQ with
      | ok db' => exact WFInv_updateItemQuantity db oid pid newQ db' h hinv
      | error e => exact hinv
  | remove oid pid =>
      simp only [applyOp]
      cases h : removeItem db oid pid with
      | ok db' => exact WFInv_removeItem db oid pid db' h hinv
      | error e => exact hinv
  | cancel oid =>
      simp only [applyOp]
      cases h : cancelOrder db oid with
      | ok db' => exact WFInv_cancelOrder db oid db' h hinv
      | error e => exact hinv

/-- C1 (amended): on a well-formed state (product ids form a primary key,
stocks start non-negative, committed line items have positive quantities),
any sequence of order-workflow operations whose create-order requests use
only strictly positive quantities leaves every product's persisted
stock non-negative.  The positivity restriction is forced by the
counterexample: the real `create_order` accepts non-positive quantities. -/
theorem c1_stock_invariant (db : DB) (ops : List Op)
    (hinv : WFInv db) (hpos : ∀ op ∈ ops, opPositive op) :
    ∀ p ∈ (runOps db ops).products, 0 ≤ p.stock := by
  have hfinal : ∀ (l : List Op), (∀ op ∈ l, opPositive op) →
      ∀ (d : DB), WFInv d → WFInv (runOps d l) := by
    intro l
    induction l with
    | nil => intro _ d hd; exact hd
    | cons op rest ih =>
        intro hl d hd
        exact ih (fun o ho => hl o (List.mem_cons_of_mem op ho)) (applyOp d op)
          (WFInv_applyOp d op (hl op (List.mem_cons_self op rest)) hd)
  exact (hfinal ops hpos db hinv).1

def dbC1 : DB := ⟨[⟨1, "P", 5, 0⟩], [], [], 1⟩

def opsC1 : List Op := [.create ⟨[⟨1, -5⟩]⟩, .create ⟨[⟨1, 5⟩]⟩, .remove 1 1]

/-- C1 counterexample: product 1 starts with stock 0 (non-negative).  The
real `create_order` accepts an order of quantity -5 (pushing stock to 5
and committing a negative-quantity line item), a second order reserves
quantity 5 (stock back to 0), and removing the negative line item
"restores" its quantity −5: the persisted stock ends at -5 < 0, refuting
the invariant as claimed. -/
theorem c1_negative_stock_reachable :
    stockOf dbC1 1 = some 0 ∧
    stockOf (runOps dbC1 opsC1) 1 = some (-5) ∧
    ∃ s, stockOf (runOps dbC1 opsC1) 1 = some s ∧ s < 0 :=
  ⟨rfl, by decide, ⟨-5, by decide, by decide⟩⟩

def dbC1w : DB := ⟨[⟨1, "A", 2, 3⟩], [], [], 1⟩

def opsC1w : List Op := [.create ⟨[⟨1, 2⟩]⟩, .cancel 1]

/-- Witness for C1 amended: a create (quantity 2) followed by a cancel on
a product with stock 3 ends with the product row back at stock 3, which
the invariant theorem certifies as non-negative. -/
theorem c1_stock_invariant_witness :
    (0 : Int) ≤ (⟨1, "A", 2, 3⟩ : Product).stock :=
  c1_stock_invariant dbC1w opsC1w
    ⟨fun p hp => by rcases List.mem_singleton.mp hp with rfl; decide,
     by decide,
     fun it hit => absurd hit (List.not_mem_nil it)⟩
    (fun op hop => by
      rcases List.mem_cons.mp hop with rfl | hop2
      · intro it hit
        rcases List.mem_singleton.mp hit with rfl
        decide
      · rcases List.mem_singleton.mp hop2 with rfl
        trivial)
    ⟨1, "A", 2, 3⟩ (by decide)
